import Mathlib

/-!
Verification development for the multi-brand tire search backend's
normalization & batched indexing pipeline.

The Python sources (`app/main.py`, `scripts/load_all_tire_data.py`,
`scripts/load_apollo_data.py`) are shallowly embedded below: pure Python
functions become Lean functions over `String`/`List Char`, Python `None`
becomes `Option`, Python dictionaries become association lists, and the
external index engine (Meilisearch) is abstracted as an oracle argument.
All inputs in the data set are ASCII, so ASCII models of `str.upper`,
`str.lower`, `str.strip` and the regexes (`\b`, `\d`, `[A-Z]`) are used.
-/

namespace SearchBackend

/-! Section: Python string primitives (ASCII fragment) -/

/-- The default whitespace characters stripped by Python's `str.strip()`
(ASCII fragment; all data this pipeline sees is ASCII). -/
def pyWs (c : Char) : Bool :=
  c = ' ' || c = '\t' || c = '\n' || c = '\r' || c = '\x0b' || c = '\x0c'

/-- Python `str.strip()` on the underlying character list. -/
def pyStripL (l : List Char) : List Char :=
  ((l.dropWhile pyWs).reverse.dropWhile pyWs).reverse

/-- Python `str.strip()`. -/
def pyStrip (s : String) : String := String.mk (pyStripL s.data)

/-- Python `str.upper()` (ASCII). -/
def pyUpper (s : String) : String := String.mk (s.data.map Char.toUpper)

/-- Python `str.lower()` (ASCII). -/
def pyLower (s : String) : String := String.mk (s.data.map Char.toLower)

/-- Python `" ".join(parts)`. -/
def pyJoinSpace (parts : List String) : String :=
  String.mk (List.intercalate [' '] (parts.map String.data))

/-- Python truthiness of an `Optional[str]`: `None` and `""` are falsy. -/
def optTruthy : Option String → Bool
  | some s => s ≠ ""
  | none => false

/-! Section: Task-handle model (`app/main.py`, `get_task_uid`)

A Meilisearch task handle reaches `get_task_uid` either as an SDK object
(attribute access, plus a `str()` form) or as a raw JSON mapping.  Python
attribute values are modelled by `PyVal`; a real `dict` never has a
`task_uid`/`uid` *attribute*, which the two-constructor shape reflects. -/

/-- A Python attribute/entry value as far as `get_task_uid` inspects it. -/
inductive PyVal where
  | pstr (s : String)
  | pint (n : Int)
  | pnone
deriving DecidableEq

/-- Python `str()` of a `PyVal`. -/
def pyValStr : PyVal → String
  | .pstr s => s
  | .pint n => toString n
  | .pnone => "None"

/-- Python truthiness of a `PyVal`. -/
def pyValTruthy : PyVal → Bool
  | .pstr s => s ≠ ""
  | .pint n => n ≠ 0
  | .pnone => false

/-- A task handle: an SDK object with attributes and a `str()` form, or a
raw mapping (Python `dict`). -/
inductive TaskHandle where
  | obj (attrs : List (String × PyVal)) (srepr : String)
  | dict (entries : List (String × PyVal))
deriving DecidableEq

/-- Attribute lookup, modelling `hasattr`/attribute access. -/
def lookupAttr (attrs : List (String × PyVal)) (k : String) : Option PyVal :=
  (attrs.find? (fun kv => kv.1 = k)).map (·.2)

/-- Python `dict.get(k)`: the stored value, or `None` when the key is absent. -/
def dictGet (entries : List (String × PyVal)) (k : String) : PyVal :=
  ((entries.find? (fun kv => kv.1 = k)).map (·.2)).getD .pnone

/-- Python `str()` of a whole handle.  For a `dict` handle this arm is unreachable
in `get_task_uid` (the `isinstance(task_info, dict)` branch fires first),
so its value is irrelevant; it is fixed to `""` here. -/
def pyStrHandle : TaskHandle → String
  | .obj _ srepr => srepr
  | .dict _ => ""

/-- Embeds `app/main.py::get_task_uid`, the defensive task-uid extractor:
`hasattr 'task_uid'` → `hasattr 'uid'` → `isinstance dict` (with
`taskUid or uid`) → `str(task_info)`. -/
def get_task_uid : TaskHandle → String
  | .obj attrs srepr =>
    match lookupAttr attrs "task_uid" with
    | some v => pyValStr v
    | none =>
      match lookupAttr attrs "uid" with
      | some v => pyValStr v
      | none => srepr
  | .dict entries =>
    pyValStr
      (if pyValTruthy (dictGet entries "taskUid") then dictGet entries "taskUid"
       else dictGet entries "uid")

/-! Modelled from the spec (§4.6): the extraction contract phrased as a
priority chain of strategies — attribute-style identifier first, then
dictionary-style (`taskUid` or `uid`), then stringifying the whole
handle — for comparison with the code's `if`/`elif` ladder. -/

/-- Spec strategy 1: an attribute-style identifier (`task_uid`, then `uid`);
inapplicable to a raw mapping. -/
def attrStrategy : TaskHandle → Option String
  | .obj attrs _ => (lookupAttr attrs "task_uid" <|> lookupAttr attrs "uid").map pyValStr
  | .dict _ => none

/-- Spec strategy 2: a dictionary-style identifier under `taskUid` or `uid`;
inapplicable to a non-mapping handle. -/
def dictStrategy : TaskHandle → Option String
  | .obj _ _ => none
  | .dict entries =>
    some (pyValStr
      (if pyValTruthy (dictGet entries "taskUid") then dictGet entries "taskUid"
       else dictGet entries "uid"))

/-- Modelled from the spec: the §4.6 fallback chain — the first applicable
strategy, in the fixed order attribute / dictionary / stringify, determines
the result. -/
def specExtractChain (h : TaskHandle) : String :=
  match attrStrategy h with
  | some s => s
  | none =>
    match dictStrategy h with
    | some s => s
    | none => pyStrHandle h

/-! Section: Index task client (`app/main.py`) -/

/-- Embeds `app/schemas.py::TaskResponse` (the `details` payload is modelled as a
string-to-string association list, which is all this pipeline ever puts
in it). -/
structure TaskResponse where
  task_uid : String
  status : String
  type : String
  details : List (String × String)
deriving DecidableEq

/-- The task record returned by the SDK's `wait_for_task` on success:
`status` is always present; `type` and `details` are probed with
`getattr(_, _, default)`, hence optional here. -/
structure FinalTask where
  status : String
  typeAttr : Option String
  detailsAttr : Option (List (String × String))

/-- Embeds `app/main.py::wait_for_task_completion`.  The external
`meili_client.wait_for_task` call is abstracted as `waitOracle`, which
either returns the final task record or raises (`Except.error` carries
`str(e)`).  Every other operation in the `try` block is total, so the
`except Exception` handler is entered exactly when the oracle errors.
The Lean function is total: no exception escapes to the caller. -/
def wait_for_task_completion (task_info : TaskHandle)
    (waitOracle : String → Except String FinalTask) : TaskResponse :=
  let task_uid := get_task_uid task_info
  match waitOracle task_uid with
  | .ok final_task =>
    { task_uid := task_uid
      status := final_task.status
      type := final_task.typeAttr.getD "unknown"
      details := final_task.detailsAttr.getD [] }
  | .error e =>
    { task_uid := get_task_uid task_info
      status := "enqueued"
      type := "unknown"
      details := [("error", "Could not wait for completion"), ("message", e)] }

/-- Embeds `app/schemas.py::IndexSettings`: seven optional fields.  All
`update_index_settings` cares about is which fields are set, and the
values handed to the engine; the exact element types are immaterial to
the claims, so attribute lists are `List String` and `synonyms` is an
association list. -/
structure IndexSettings where
  searchable_attributes : Option (List String)
  filterable_attributes : Option (List String)
  sortable_attributes : Option (List String)
  ranking_rules : Option (List String)
  stop_words : Option (List String)
  synonyms : Option (List (String × List String))
  distinct_attribute : Option String
deriving DecidableEq

/-- The settings object with every field `None`. -/
def allNoneSettings (s : IndexSettings) : Prop :=
  s.searchable_attributes = none ∧ s.filterable_attributes = none ∧
  s.sortable_attributes = none ∧ s.ranking_rules = none ∧
  s.stop_words = none ∧ s.synonyms = none ∧ s.distinct_attribute = none

instance : DecidablePred allNoneSettings := fun s => by
  unfold allNoneSettings; infer_instance

/-- The sequence of per-attribute update calls `update_index_settings`
issues, in the source's fixed order: one call per non-`None` field among
the six fields the endpoint handles (`distinct_attribute` has no handler
in the source and triggers no call). -/
def settingsSteps (s : IndexSettings) : List String :=
  (if s.searchable_attributes.isSome then ["searchable_attributes"] else []) ++
  (if s.filterable_attributes.isSome then ["filterable_attributes"] else []) ++
  (if s.sortable_attributes.isSome then ["sortable_attributes"] else []) ++
  (if s.ranking_rules.isSome then ["ranking_rules"] else []) ++
  (if s.stop_words.isSome then ["stop_words"] else []) ++
  (if s.synonyms.isSome then ["synonyms"] else [])

/-- The fallback response built when no update task was issued. -/
def noChangesResponse : TaskResponse :=
  { task_uid := "no_changes"
    status := "succeeded"
    type := "settings_update"
    details := [("message", "No settings to update")] }

/-- Embeds `app/main.py::update_index_settings` (success path).  The engine is
abstracted as `engine : String → TaskResponse`, the composite of
`index.update_<attr>(...)` followed by `wait_for_task_completion`: it
maps an attribute name to that update's awaited task result.  Returns
the list of update calls made (in order) together with the returned
`TaskResponse` (`tasks[-1] if tasks else` the no-changes fallback). -/
def update_index_settings (s : IndexSettings) (engine : String → TaskResponse) :
    List String × TaskResponse :=
  let calls := settingsSteps s
  let tasks := calls.map engine
  (calls, match tasks.getLast? with
          | some t => t
          | none => noChangesResponse)

/-! Section: Combined load-index/speed-rating splitting
(`scripts/load_all_tire_data.py::parse_load_speed_combined`) -/

/-- Matches `[A-Z]` (the regex is ASCII-literal). -/
def isUpperAZ (c : Char) : Bool := 'A' ≤ c && c ≤ 'Z'

/-- The text matched by `(\d+(?:/\d+)?)` anchored at a digit: the maximal
digit run, extended by `/` plus a second maximal digit run when the slash
is immediately followed by a digit. -/
def loadMatchAt (l : List Char) : List Char :=
  let d1 := l.takeWhile Char.isDigit
  let r1 := l.dropWhile Char.isDigit
  match r1 with
  | '/' :: r2 =>
    let d2 := r2.takeWhile Char.isDigit
    if d2.isEmpty then d1 else d1 ++ '/' :: d2
  | _ => d1

/-- Models `re.search` for the pattern of one group of digits with an optional slash part: leftmost match, scanning to the
first digit. -/
def searchLoad : List Char → Option (List Char)
  | [] => none
  | c :: cs => if c.isDigit then some (loadMatchAt (c :: cs)) else searchLoad cs

/-- Models `re.search` for an uppercase-letter group: leftmost maximal uppercase run. -/
def searchSpeed : List Char → Option (List Char)
  | [] => none
  | c :: cs =>
    if isUpperAZ c then some ((c :: cs).takeWhile isUpperAZ) else searchSpeed cs

/-- Embeds `scripts/load_all_tire_data.py::parse_load_speed_combined`. -/
def parse_load_speed_combined (combined_field : String) :
    Option String × Option String :=
  if combined_field = "" ∨ pyStrip combined_field = "" then (none, none)
  else ((searchLoad combined_field.data).map String.mk,
        (searchSpeed combined_field.data).map String.mk)

/-! Modelled from the spec (§4.2): "first maximal digit run (optionally
containing a slash) → load index; first maximal uppercase-letter run →
speed rating. If neither pattern matches, both derived fields remain
absent."  Stated via `dropWhile` to the first matching character, for
comparison with the code's left-to-right scan and its separate
empty/whitespace early return. -/

/-- Modelled from the spec: the first maximal digit run, optionally
containing one slash. -/
def specLoadIndex (l : List Char) : Option (List Char) :=
  let t := l.dropWhile (fun c => !c.isDigit)
  if t.isEmpty then none else some (loadMatchAt t)

/-- Modelled from the spec: the first maximal uppercase-letter run. -/
def specSpeedRating (l : List Char) : Option (List Char) :=
  let t := l.dropWhile (fun c => !isUpperAZ c)
  if t.isEmpty then none else some (t.takeWhile isUpperAZ)

/-! Section: Tag extraction (`scripts/load_all_tire_data.py::extract_tags`) -/

/-- A regex word character (`\w` over ASCII input). -/
def wordChar (c : Char) : Bool := c.isAlpha || c.isDigit || c = '_'

/-- Maximal runs of word characters, left to right (`acc` holds the
current run, reversed). -/
def wordRunsAux : List Char → List Char → List (List Char)
  | [], acc => if acc.isEmpty then [] else [acc.reverse]
  | c :: cs, acc =>
    if wordChar c then wordRunsAux cs (c :: acc)
    else if acc.isEmpty then wordRunsAux cs []
    else acc.reverse :: wordRunsAux cs []

/-- Models the alphabetic-word `re.findall` of `extract_tags` over ASCII input: exactly the
maximal word-character runs that are purely alphabetic and of length ≥ 3
(a letter run adjacent to a digit or underscore has no `\b` at that end
and yields no match, and no proper sub-run starts or ends at a `\b`). -/
def alphaWords (s : String) : List String :=
  ((wordRunsAux s.data []).filter
    (fun r => decide (3 ≤ r.length) && r.all Char.isAlpha)).map String.mk

/-- Models the size-component `re.findall` of `extract_tags`: left-to-right scan taking,
at each position, a maximal digit run (with an optional `.`‑digits part)
or a maximal uppercase run, resuming after each match.  Structural fuel
(`sizeTokens` passes the list length, which bounds the number of steps). -/
def sizeTokensF : Nat → List Char → List (List Char)
  | 0, _ => []
  | _, [] => []
  | f + 1, c :: cs =>
    if c.isDigit then
      let d1 := (c :: cs).takeWhile Char.isDigit
      let r1 := (c :: cs).dropWhile Char.isDigit
      match r1 with
      | '.' :: r2 =>
        let d2 := r2.takeWhile Char.isDigit
        if d2.isEmpty then d1 :: sizeTokensF f r1
        else (d1 ++ '.' :: d2) :: sizeTokensF f (r2.dropWhile Char.isDigit)
      | _ => d1 :: sizeTokensF f r1
    else if isUpperAZ c then
      ((c :: cs).takeWhile isUpperAZ) :: sizeTokensF f ((c :: cs).dropWhile isUpperAZ)
    else sizeTokensF f cs

/-- See `sizeTokensF`. -/
def sizeTokens (l : List Char) : List (List Char) := sizeTokensF l.length l

/-- First-occurrence de-duplication.  Python builds `list(set(...))`,
whose order is implementation-defined; this model fixes first-occurrence
order.  Every property proved below depends only on membership and size,
which agree with any set order whenever the de-duplicated list has at
most 10 elements (so the `[:10]` truncation drops nothing). -/
def dedupFirstAux : List String → List String → List String
  | [], _ => []
  | s :: rest, seen =>
    if seen.contains s then dedupFirstAux rest seen
    else s :: dedupFirstAux rest (s :: seen)

/-- See `dedupFirstAux`. -/
def dedupFirst (l : List String) : List String := dedupFirstAux l []

/-- The stop-word set of `extract_tags`. -/
def commonWords : List String :=
  ["the", "and", "or", "for", "with", "from", "apollo", "ceat", "mrf", "eurogrip", "tvs"]

/-- Embeds `scripts/load_all_tire_data.py::extract_tags`.  At its call site
`material` and `brand` are plain strings while `pattern_model` and
`size` are `Optional[str]`; the `if material:` / `if brand:` guards are
kept. -/
def extract_tags (material : String) (pattern_model : Option String)
    (size : Option String) (brand : String) : List String :=
  let t1 := if material ≠ "" then (alphaWords (pyUpper material)).map pyLower else []
  let t2 :=
    match pattern_model with
    | some p => if p ≠ "" then (alphaWords (pyUpper p)).map pyLower else []
    | none => []
  let t3 :=
    match size with
    | some sz =>
      if sz ≠ "" then
        ((sizeTokens (pyUpper sz).data).filter (fun r => decide (2 ≤ r.length))).map
          (fun r => pyLower (String.mk r))
      else []
    | none => []
  let t4 := if brand ≠ "" then [pyLower brand] else []
  let tags := t1 ++ t2 ++ t3 ++ t4
  (dedupFirst (tags.filter
    (fun t => !commonWords.contains t && decide (2 ≤ t.length)))).take 10

/-! Section: Category synthesis -/

/-- Truthiness of `v and v.strip()` for an `Optional[str]` `v`. -/
def optStripTruthy : Option String → Bool
  | some s => s ≠ "" && pyStrip s ≠ ""
  | none => false

/-- Embeds `scripts/load_all_tire_data.py::compute_category`.  At its call site
`group` is `Optional[str]`, `record_type` a (defaulted) string and
`brand` a string, but the function itself also accepts `None` for
`record_type`, so both are `Option` here. -/
def compute_category (group record_type : Option String) (brand : String) : String :=
  let parts1 := if brand ≠ "" then [brand] else []
  let parts2 := parts1 ++ (if optStripTruthy group then [pyStrip (group.getD "")] else [])
  let parts3 := parts2 ++
    (if optStripTruthy record_type then
      let rt := record_type.getD ""
      if (pyLower rt).data.getLast? = some 's' then [rt] else [rt ++ "s"]
    else if optTruthy group then ["Products"]
    else ["Automotive Parts"])
  pyJoinSpace parts3

namespace ApolloLoader

/-- Embeds `scripts/load_apollo_data.py::compute_category` (the single-brand
loader's variant, which takes no brand argument and receives plain
strings, `""` standing for absent). -/
def compute_category (group record_type : String) : String :=
  if group ≠ "" ∧ record_type ≠ "" then group ++ " " ++ record_type ++ "s"
  else if record_type ≠ "" then record_type ++ "s"
  else if group ≠ "" then group
  else "Automotive Parts"

end ApolloLoader

/-! Section: Title synthesis (`scripts/load_all_tire_data.py::compute_title`) -/

/-- Checks `pat.isPrefixOf` on every suffix: Python's substring test
`pat in s` (for the non-empty `pat` this pipeline uses). -/
def pyContains (pat : List Char) : List Char → Bool
  | [] => pat.isEmpty
  | c :: cs => pat.isPrefixOf (c :: cs) || pyContains pat cs

/-- Python `s.replace(pat, "")` for non-empty `pat`: remove every non-overlapping
occurrence, left to right.  Fuel-structured; `pyReplaceEmpty` passes the
text length, which bounds the steps since each step consumes at least one
character (the one call site guarantees `pat ≠ []`). -/
def pyReplaceEmptyF : Nat → List Char → List Char → List Char
  | 0, _, _ => []
  | _, _, [] => []
  | f + 1, pat, c :: cs =>
    if pat.isPrefixOf (c :: cs) then pyReplaceEmptyF f pat ((c :: cs).drop pat.length)
    else c :: pyReplaceEmptyF f pat cs

/-- See `pyReplaceEmptyF`. -/
def pyReplaceEmpty (pat : String) (s : String) : String :=
  String.mk (pyReplaceEmptyF s.data.length pat.data s.data)

/-- Embeds `scripts/load_all_tire_data.py::compute_title`.  At its call site
`material` is a plain (non-empty) string and `size`, `pattern_model` are
`Optional[str]`. -/
def compute_title (material : String) (size pattern_model : Option String) : String :=
  let title_parts1 := if optStripTruthy size then [pyStrip (size.getD "")] else []
  let title_parts2 := title_parts1 ++
    (if optStripTruthy pattern_model ∧ pattern_model ≠ some material then
      [pyStrip (pattern_model.getD "")]
    else if material ≠ "" ∧ pyStrip material ≠ "" then
      [if optTruthy size ∧ pyContains (size.getD "").data material.data then
        pyStrip (pyReplaceEmpty (size.getD "") material)
      else pyStrip material]
    else [])
  let title := pyStrip (pyJoinSpace title_parts2)
  if title ≠ "" then title else if material ≠ "" then material else "Tire Product"

/-! Section: Row parsing (`scripts/load_all_tire_data.py::parse_brand_data`) -/

/-- One TSV row as produced by `csv.DictReader`: source column name →
raw cell text. -/
abbrev RawRow := List (String × String)

/-- Python `row.get(key, default)`. -/
def rowGet (row : RawRow) (key default : String) : String :=
  match row.find? (fun kv => kv.1 = key) with
  | some kv => kv.2
  | none => default

/-- One brand's entry in `DATA_FILES[brand]["columns"]`: canonical field →
source column name; `none` models both a missing key and an explicit
Python `None`. -/
structure ColumnMap where
  group : Option String
  material : Option String
  record_type : Option String
  mpn : Option String
  size : Option String
  ply_rating : Option String
  pattern_model : Option String
  construction_type : Option String
  load_index : Option String
  speed_rating : Option String
  series : Option String
  special_features : Option String
deriving DecidableEq

/-- Evaluates `row.get(column_mapping.get(f, ''), '').strip() if column_mapping.get(f)
else None` — the guarded extraction used for the ten optional fields. -/
def getMappedField (row : RawRow) (col : Option String) : Option String :=
  match col with
  | some c => if c ≠ "" then some (pyStrip (rowGet row c "")) else none
  | none => none

/-- Evaluates `row.get(column_mapping.get(f, ''), '').strip()` — the unguarded
extraction used for `mpn` and `material`. -/
def getRequiredField (row : RawRow) (col : Option String) : String :=
  pyStrip (rowGet row (col.getD "") "")

/-- Embeds `clean_empty` from `parse_brand_data`: `value if value and value.strip()
else None` (note it returns the *unstripped* value). -/
def cleanEmpty (v : Option String) : Option String :=
  match v with
  | some s => if s ≠ "" ∧ pyStrip s ≠ "" then some s else none
  | none => none

/-- The canonical product document `parse_brand_data` emits. -/
structure CanonicalProduct where
  id : String
  group : Option String
  material : String
  record_type : String
  mpn : String
  size : Option String
  ply_rating : Option String
  pattern_model : Option String
  construction_type : Option String
  load_index : Option String
  speed_rating : Option String
  series : Option String
  special_features : Option String
  title : String
  brand : String
  category : String
  tags : List String
deriving DecidableEq

/-- The per-row body of `scripts/load_all_tire_data.py::parse_brand_data`
(lines 209–295): extraction by the column map, the early
missing-`mpn`/`material` skip, the CEAT/MRF/Eurogrip quirks, empty-string
normalization, defaulting, derived fields and id assignment.  `none`
models `continue` (the row contributes no product).  The `try/except`
around the body catches nothing in this model because every operation in
it is total. -/
def parse_row (brand : String) (cm : ColumnMap) (row : RawRow) :
    Option CanonicalProduct :=
  let group0 := getMappedField row cm.group
  let material0 := getRequiredField row cm.material
  let record_type0 := getMappedField row cm.record_type
  let mpn := getRequiredField row cm.mpn
  let size0 := getMappedField row cm.size
  let ply_rating0 := getMappedField row cm.ply_rating
  let pattern_model0 := getMappedField row cm.pattern_model
  let construction_type0 := getMappedField row cm.construction_type
  let load_index0 := getMappedField row cm.load_index
  let speed_rating0 := getMappedField row cm.speed_rating
  let series0 := getMappedField row cm.series
  let special_features0 := getMappedField row cm.special_features
  -- "Skip rows with missing essential data" (before any brand quirk)
  if mpn = "" ∨ material0 = "" then none
  else
    -- brand quirks
    let ls :=
      if brand = "CEAT" ∧ optTruthy load_index0 ∧ load_index0 = speed_rating0 then
        parse_load_speed_combined (load_index0.getD "")
      else (load_index0, speed_rating0)
    let material1 :=
      if brand = "MRF" then
        let cc := pyStrip (rowGet row "Complete Tyre Code" "")
        -- `material0 = ""` is unreachable here: such rows were skipped above
        if cc ≠ "" ∧ material0 = "" then cc else material0
      else if brand = "Eurogrip" then
        let cc := pyStrip (rowGet row "Complete Tyre Code" "")
        if cc ≠ "" ∧ (material0 = "" ∨ material0.length < cc.length) then cc
        else material0
      else material0
    -- clean up empty strings to None; record_type defaults to "Tyre"
    let group := cleanEmpty group0
    let record_type := (cleanEmpty record_type0).getD "Tyre"
    let size := cleanEmpty size0
    let ply_rating := cleanEmpty ply_rating0
    let pattern_model := cleanEmpty pattern_model0
    let construction_type := cleanEmpty construction_type0
    let load_index := cleanEmpty ls.1
    let speed_rating := cleanEmpty ls.2
    let series := cleanEmpty series0
    let special_features := cleanEmpty special_features0
    some
      { id := pyUpper brand ++ "_" ++ mpn
        group := group
        material := material1
        record_type := record_type
        mpn := mpn
        size := size
        ply_rating := ply_rating
        pattern_model := pattern_model
        construction_type := construction_type
        load_index := load_index
        speed_rating := speed_rating
        series := series
        special_features := special_features
        title := compute_title material1 size pattern_model
        brand := brand
        category := compute_category group (some record_type) brand
        tags := extract_tags material1 pattern_model size brand }

/-- Embeds `scripts/load_all_tire_data.py::parse_brand_data`, with the TSV file
already read into rows: every row is parsed independently and rejected
rows are skipped (`continue`), never aborting the run. -/
def parse_brand_data (brand : String) (cm : ColumnMap) (rows : List RawRow) :
    List CanonicalProduct :=
  rows.filterMap (parse_row brand cm)

/-- Entry `DATA_FILES["Apollo"]["columns"]`. -/
def apolloColumns : ColumnMap :=
  { group := some "Group", material := some "Material",
    record_type := some "Record Type", mpn := some "MPN", size := some "Size",
    ply_rating := some "Ply Rating", pattern_model := some "Pattern/Model",
    construction_type := some "Construction Type", load_index := some "Load Index",
    speed_rating := some "Speed Rating", series := some "Series",
    special_features := some "Special Features" }

/-- Entry `DATA_FILES["CEAT"]["columns"]`. -/
def ceatColumns : ColumnMap :=
  { group := some "Mat.Grp.Description", material := some "Material Description",
    record_type := some "rec_type", mpn := some "MPN", size := some "Size",
    ply_rating := some "Ply Rating", pattern_model := some "Model / Brand",
    construction_type := some "Tire Type",
    load_index := some "load index and speed rating",
    speed_rating := some "load index and speed rating", series := none,
    special_features := some "Other" }

/-- Entry `DATA_FILES["MRF"]["columns"]`. -/
def mrfColumns : ColumnMap :=
  { group := some "CATEGORY", material := some "OE PRODUCT NAME",
    record_type := none, mpn := some "MPN", size := some "Tire Size",
    ply_rating := some "Ply Rating", pattern_model := some "Product Name",
    construction_type := some "Construction", load_index := some "Load Index",
    speed_rating := some "Speed Rating", series := none,
    special_features := some "Extras" }

/-- Entry `DATA_FILES["Eurogrip"]["columns"]`. -/
def eurogripColumns : ColumnMap :=
  { group := some "Group", material := some "Product Name",
    record_type := some "Type", mpn := some "Tyre Code", size := some "Tire Size",
    ply_rating := some "Ply Rating", pattern_model := some "Product Name",
    construction_type := some "Construction", load_index := some "Load Index",
    speed_rating := some "Speed Rating", series := none,
    special_features := some "Extras" }

/-- The combined emission of a multi-source run: the orchestrator (`main`)
parses each configured source in turn and indexes everything it emits, so
the set of documents written in one run is this concatenation. -/
def run_all_sources (srcs : List (String × ColumnMap × List RawRow)) :
    List CanonicalProduct :=
  (srcs.map (fun s => parse_brand_data s.1 s.2.1 s.2.2)).flatten

/-! Section: Batching (`scripts/load_all_tire_data.py::main`, lines 441–448) -/

/-- Constant `BATCH_SIZE`. -/
def BATCH_SIZE : Nat := 100

/-- Python slice `l[a:b]` for `0 ≤ a ≤ b`. -/
def pySlice (a b : Nat) (l : List CanonicalProduct) : List CanonicalProduct :=
  (l.drop a).take (b - a)

/-- Python `range(0, stop, step)` for `step > 0`, in closed form. -/
def pyRangeBy (stop step : Nat) : List Nat :=
  (List.range ((stop + step - 1) / step)).map (· * step)

/-- The batch loop of `main`: for each `batch_start` in
`range(0, len(products), BATCH_SIZE)` it computes
`batch_end = min(batch_start + BATCH_SIZE, len(products))`,
`batch_num = batch_start // BATCH_SIZE + 1`, slices
`products[batch_start:batch_end]` and passes the pair to
`index_products_batch`, which submits and awaits it before the loop
continues.  The returned list is therefore the exact submit-and-await
order. -/
def mainBatchTrace (products : List CanonicalProduct) :
    List (Nat × List CanonicalProduct) :=
  (pyRangeBy products.length BATCH_SIZE).map
    (fun s => (s / BATCH_SIZE + 1,
               pySlice s (min (s + BATCH_SIZE) products.length) products))

/-- Declarative chunking used to state what the slice loop does: repeatedly
split off the first `BATCH_SIZE` elements.  Fuel-structured on the list
length so that it reduces definitionally. -/
def chunksF : Nat → List CanonicalProduct → List (List CanonicalProduct)
  | _, [] => []
  | 0, _ :: _ => []
  | f + 1, c :: cs =>
    (c :: cs).take BATCH_SIZE :: chunksF f ((c :: cs).drop BATCH_SIZE)

/-- See `chunksF`. -/
def chunks (l : List CanonicalProduct) : List (List CanonicalProduct) :=
  chunksF l.length l

/-! Section: Concrete fixtures and auxiliary definitions used by the claims -/

/-- The six fields `update_index_settings` actually handles are all
`None` (`distinct_attribute` may or may not be set). -/
def handledNoneSettings (s : IndexSettings) : Prop :=
  s.searchable_attributes = none ∧ s.filterable_attributes = none ∧
  s.sortable_attributes = none ∧ s.ranking_rules = none ∧
  s.stop_words = none ∧ s.synonyms = none

instance : DecidablePred handledNoneSettings := fun s => by
  unfold handledNoneSettings; infer_instance

/-- A settings object with only the unhandled `distinct_attribute` set. -/
def distinctOnlySettings : IndexSettings :=
  { searchable_attributes := none, filterable_attributes := none,
    sortable_attributes := none, ranking_rules := none, stop_words := none,
    synonyms := none, distinct_attribute := some "id" }

/-- An MRF row whose primary material column (`OE PRODUCT NAME`) is empty
but whose `Complete Tyre Code` column is non-empty. -/
def mrfFallbackRow : RawRow :=
  [("MPN", "M1"), ("OE PRODUCT NAME", ""),
   ("Complete Tyre Code", "155/80 D12 LOADSTAR"), ("CATEGORY", "SCV"),
   ("Tire Size", "155/80 D12")]

/-- The spec scenario row `{mpn:"X1", material:"155/80 D12 8PR LOADSTAR
SUPER XP - D", size:"155/80 D12", pattern_model:"LOADSTAR SUPER XP",
group:"SCV"}` with `record_type` absent, keyed by the Apollo source's
column names. -/
def scenarioRow : RawRow :=
  [("MPN", "X1"), ("Material", "155/80 D12 8PR LOADSTAR SUPER XP - D"),
   ("Size", "155/80 D12"), ("Pattern/Model", "LOADSTAR SUPER XP"),
   ("Group", "SCV")]

/-- The tag list the code computes for the scenario row (in this model's
first-occurrence order; the de-duplicated set has 5 < 10 elements, so
membership is independent of Python's set order). -/
def scenarioTags : List String := ["loadstar", "super", "155", "80", "12"]

/-- The skeleton column map of the C4 scenario sources (only `mpn` and
`material` mapped). -/
def mpnOnlyColumns : ColumnMap :=
  { group := none, material := some "Material", record_type := none,
    mpn := some "MPN", size := none, ply_rating := none, pattern_model := none,
    construction_type := none, load_index := none, speed_rating := none,
    series := none, special_features := none }

/-- A multi-source run in which source "A" contains the same mpn `Z9`
twice and source "B" contains it once. -/
def dupMpnSources : List (String × ColumnMap × List RawRow) :=
  [("A", mpnOnlyColumns,
     [[("MPN", "Z9"), ("Material", "T1")], [("MPN", "Z9"), ("Material", "T2")]]),
   ("B", mpnOnlyColumns, [[("MPN", "Z9"), ("Material", "T3")]])]

/-- The chunk lengths as a function of the input length alone. -/
def lenChunksF : Nat → Nat → List Nat
  | _, 0 => []
  | 0, _ + 1 => []
  | f + 1, n + 1 => min BATCH_SIZE (n + 1) :: lenChunksF f (n + 1 - BATCH_SIZE)

/-- The `id := "A_Z9"` sample used to instantiate C5 concretely. -/
def sampleProduct : CanonicalProduct :=
  { id := "A_Z9", group := none, material := "T1", record_type := "Tyre",
    mpn := "Z9", size := none, ply_rating := none, pattern_model := none,
    construction_type := none, load_index := none, speed_rating := none,
    series := none, special_features := none, title := "T1", brand := "A",
    category := "A Tyres", tags := [] }

/-! Section: Claim C7 -/

/-- C7: for every task handle of any shape, `get_task_uid` extracts the
identifier by the spec's fixed priority chain — attribute-style first,
then dictionary-style (`taskUid`/`uid`), then the string form of the
whole handle — the first applicable strategy determining the result. -/
theorem c7_extraction_order (h : TaskHandle) :
    get_task_uid h = specExtractChain h := by
  cases h with
  | obj attrs srepr =>
    simp only [get_task_uid, specExtractChain, attrStrategy, dictStrategy, pyStrHandle]
    cases hT : lookupAttr attrs "task_uid" <;>
      cases hU : lookupAttr attrs "uid" <;>
        simp [hT, hU, Option.orElse]
  | dict entries => rfl

/-! Section: Claim C9 -/

/-- C9: `get_task_uid` is total (it is a Lean function into `String`, and
every Python operation it performs — `hasattr`, `isinstance`, `dict.get`,
`str` — is non-raising, so no exception is possible); for a dict handle
with neither a `taskUid` nor a `uid` key it returns the literal string
`"None"` (the stringification of the missing value), not the
stringification of the whole dict. -/
theorem c9_dict_without_keys (entries : List (String × PyVal))
    (hT : entries.find? (fun kv => kv.1 = "taskUid") = none)
    (hU : entries.find? (fun kv => kv.1 = "uid") = none) :
    get_task_uid (.dict entries) = "None" := by
  simp [get_task_uid, dictGet, hT, hU, pyValTruthy, pyValStr]

/-- Witness for C9 at a concrete keyless dict. -/
theorem c9_dict_without_keys_witness :
    get_task_uid (.dict [("status", .pstr "enqueued")]) = "None" :=
  c9_dict_without_keys [("status", .pstr "enqueued")] (by decide) (by decide)

/-! Section: Claim C1 -/

/-- C1: whenever the await step raises (the wait oracle errors — timeout,
transport error, or any other exception), `wait_for_task_completion`
returns a `TaskResponse` with status `"enqueued"` (never `"failed"`, so
the submission is not downgraded) whose details contain a non-empty
diagnostic message; being a total Lean function, it lets no exception
escape to its caller. -/
theorem c1_wait_graceful_degradation (h : TaskHandle)
    (oracle : String → Except String FinalTask) (e : String)
    (herr : oracle (get_task_uid h) = Except.error e) :
    (wait_for_task_completion h oracle).status = "enqueued" ∧
    (wait_for_task_completion h oracle).status ≠ "failed" ∧
    ∃ kv ∈ (wait_for_task_completion h oracle).details, kv.2 ≠ "" := by
  have hres : wait_for_task_completion h oracle =
      { task_uid := get_task_uid h, status := "enqueued", type := "unknown",
        details := [("error", "Could not wait for completion"), ("message", e)] } := by
    unfold wait_for_task_completion
    simp only [herr]
  rw [hres]
  exact ⟨rfl, show ("enqueued" : String) ≠ "failed" by decide,
    ⟨("error", "Could not wait for completion"), by simp, by decide⟩⟩

/-- Witness for C1: a concrete object handle whose wait oracle times out. -/
theorem c1_wait_graceful_degradation_witness :
    (wait_for_task_completion (.obj [("task_uid", .pint 42)] "TaskInfo")
        (fun _ => .error "timeout")).status = "enqueued" ∧
    (wait_for_task_completion (.obj [("task_uid", .pint 42)] "TaskInfo")
        (fun _ => .error "timeout")).status ≠ "failed" ∧
    ∃ kv ∈ (wait_for_task_completion (.obj [("task_uid", .pint 42)] "TaskInfo")
        (fun _ => .error "timeout")).details, kv.2 ≠ "" :=
  c1_wait_graceful_degradation (.obj [("task_uid", .pint 42)] "TaskInfo")
    (fun _ => .error "timeout") "timeout" rfl

/-! Section: Claim C10 -/

/-- C10 counterexample: `distinct_attribute := some "id"` makes the
settings object not all-`None`, yet the endpoint issues no update call
and returns the `no_changes` fallback — not the result of any awaited
task (none exists) — because `distinct_attribute` has no handler. -/
theorem c10_distinct_attribute_ignored :
    ¬ allNoneSettings distinctOnlySettings ∧
    update_index_settings distinctOnlySettings
        (fun a => { task_uid := a, status := "succeeded",
                    type := "settingsUpdate", details := [] }) =
      ([], noChangesResponse) := by
  constructor
  · decide
  · rfl

/-- C10 (amended): if none of the six handled settings fields is set — in
particular when every field is `None` — `update_index_settings` makes no
update call to the engine and returns the fallback `TaskResponse` with
`task_uid = "no_changes"`, `status = "succeeded"`, `type =
"settings_update"`; if at least one handled field is set, the returned
result is exactly the last individually awaited task's result.  (The
unhandled `distinct_attribute` never triggers a call.) -/
theorem c10_settings_update (s : IndexSettings) (engine : String → TaskResponse) :
    (handledNoneSettings s → update_index_settings s engine = ([], noChangesResponse)) ∧
    (allNoneSettings s → update_index_settings s engine = ([], noChangesResponse)) ∧
    (¬ handledNoneSettings s →
      (update_index_settings s engine).1 ≠ [] ∧
      ((update_index_settings s engine).1.map engine).getLast? =
        some (update_index_settings s engine).2) := by
  have hsteps : handledNoneSettings s ↔ settingsSteps s = [] := by
    obtain ⟨a, b, c, d, e, f, g⟩ := s
    cases a <;> cases b <;> cases c <;> cases d <;> cases e <;> cases f <;>
      simp [handledNoneSettings, settingsSteps]
  constructor
  · intro h
    rw [show update_index_settings s engine =
      (settingsSteps s, match ((settingsSteps s).map engine).getLast? with
        | some t => t | none => noChangesResponse) from rfl, hsteps.mp h]
    rfl
  constructor
  · intro h
    have : handledNoneSettings s := ⟨h.1, h.2.1, h.2.2.1, h.2.2.2.1, h.2.2.2.2.1, h.2.2.2.2.2.1⟩
    rw [show update_index_settings s engine =
      (settingsSteps s, match ((settingsSteps s).map engine).getLast? with
        | some t => t | none => noChangesResponse) from rfl, hsteps.mp this]
    rfl
  · intro h
    have hne : settingsSteps s ≠ [] := fun hc => h (hsteps.mpr hc)
    have hmapne : (settingsSteps s).map engine ≠ [] := by
      simpa using hne
    obtain ⟨t, ht⟩ := Option.ne_none_iff_exists'.mp
      (mt List.getLast?_eq_none_iff.mp hmapne)
    refine ⟨hne, ?_⟩
    rw [show (update_index_settings s engine).1 = settingsSteps s from rfl, ht]
    rw [show (update_index_settings s engine).2 =
      (match ((settingsSteps s).map engine).getLast? with
        | some t => t | none => noChangesResponse) from rfl, ht]

/-- Witness for C10 at a concrete all-`None` settings object and at one
with a single handled field set. -/
theorem c10_settings_update_witness :
    update_index_settings
        { searchable_attributes := none, filterable_attributes := none,
          sortable_attributes := none, ranking_rules := none, stop_words := none,
          synonyms := none, distinct_attribute := none }
        (fun a => { task_uid := a, status := "succeeded",
                    type := "settingsUpdate", details := [] }) =
      ([], noChangesResponse) ∧
    ((update_index_settings
        { searchable_attributes := none, filterable_attributes := none,
          sortable_attributes := none, ranking_rules := some ["words"],
          stop_words := none, synonyms := none, distinct_attribute := none }
        (fun a => { task_uid := a, status := "succeeded",
                    type := "settingsUpdate", details := [] })).1.map
        (fun a => { task_uid := a, status := "succeeded",
                    type := "settingsUpdate", details := [] })).getLast? =
      some (update_index_settings
        { searchable_attributes := none, filterable_attributes := none,
          sortable_attributes := none, ranking_rules := some ["words"],
          stop_words := none, synonyms := none, distinct_attribute := none }
        (fun a => { task_uid := a, status := "succeeded",
                    type := "settingsUpdate", details := [] })).2 :=
  ⟨(c10_settings_update _ _).2.1 (by decide),
   ((c10_settings_update _ _).2.2 (by decide)).2⟩

/-! Section: Claim C6 -/

/-- C6 counterexample, refuting both halves of the claim on its cited
sources: with `group` and `record_type` both absent but a brand
supplied, the multi-brand `compute_category` prefixes the brand, so the
whole category is not the literal `"Automotive Parts"`; and with
`record_type` absent but `group` present, the Apollo loader's
`compute_category` returns the bare group — no `"Products"` is
appended. -/
theorem c6_brand_prefix_counterexample :
    (compute_category none none "Apollo" = "Apollo Automotive Parts" ∧
     compute_category none none "Apollo" ≠ "Automotive Parts") ∧
    (ApolloLoader.compute_category "SCV" "" = "SCV" ∧
     ApolloLoader.compute_category "SCV" "" ≠ "SCV Products") := by
  refine ⟨⟨by decide, by decide⟩, by decide, by decide⟩

/-- Strings are equal when their character data is. -/
theorem str_ext {a b : String} (h : a.data = b.data) : a = b :=
  congrArg String.mk h

/-- Python `" ".join` of two parts. -/
theorem pyJoinSpace_pair (a b : String) : pyJoinSpace [a, b] = a ++ " " ++ b := by
  apply str_ext
  simp [pyJoinSpace, List.intercalate, String.data_append]

/-- C6 (amended): when `group` and `record_type` are both absent the
synthesized category is `"Automotive Parts"` prefixed by the brand and a
space whenever a brand is supplied, and is exactly the literal
`"Automotive Parts"` only when no brand is supplied — as in the
single-brand Apollo loader's variant, which takes no brand argument.
When `record_type` is absent but `group` is present (non-blank), the two
cited implementations diverge: the multi-brand `compute_category`
appends the literal `"Products"` after the (stripped) group, while the
Apollo loader's `compute_category` returns the bare group and appends
nothing. -/
theorem c6_category_synthesis :
    (∀ b : String, b ≠ "" → compute_category none none b = b ++ " Automotive Parts") ∧
    compute_category none none "" = "Automotive Parts" ∧
    ApolloLoader.compute_category "" "" = "Automotive Parts" ∧
    (∀ b g : String, g ≠ "" → pyStrip g ≠ "" →
      compute_category (some g) none b =
        pyJoinSpace ((if b ≠ "" then [b] else []) ++ [pyStrip g, "Products"])) ∧
    (∀ g : String, g ≠ "" → ApolloLoader.compute_category g "" = g) := by
  refine ⟨?_, by decide, by decide, ?_,
    fun g hg => by simp [ApolloLoader.compute_category, hg]⟩
  · intro b hb
    have : pyJoinSpace [b, "Automotive Parts"] = b ++ " " ++ "Automotive Parts" :=
      pyJoinSpace_pair b "Automotive Parts"
    simp only [compute_category, optStripTruthy, optTruthy, if_neg, hb, if_pos,
      Bool.false_eq_true, ite_false]
    simpa [compute_category, optStripTruthy, optTruthy, hb, String.append_assoc] using this
  · intro b g hg hgs
    simp [compute_category, optStripTruthy, optTruthy, hg, hgs]

/-- Witness for C6 at concrete brand/group values, covering both
implementations. -/
theorem c6_category_synthesis_witness :
    compute_category none none "CEAT" = "CEAT Automotive Parts" ∧
    compute_category (some "SCV") none "CEAT" =
      pyJoinSpace ["CEAT", "SCV", "Products"] ∧
    ApolloLoader.compute_category "OTR" "" = "OTR" := by
  refine ⟨c6_category_synthesis.1 "CEAT" (by decide), ?_,
    c6_category_synthesis.2.2.2.2 "OTR" (by decide)⟩
  have := c6_category_synthesis.2.2.2.1 "CEAT" "SCV" (by decide) (by decide)
  simpa using this

/-! Section: Claim C8 -/

/-- The left-to-right scan of `re.search` for the load-index pattern
agrees with dropping to the first digit. -/
theorem searchLoad_eq_spec (l : List Char) : searchLoad l = specLoadIndex l := by
  induction l with
  | nil => rfl
  | cons c cs ih =>
    by_cases h : c.isDigit
    · simp [searchLoad, specLoadIndex, h, List.dropWhile_cons]
    · simp only [searchLoad, specLoadIndex, h, if_false, List.dropWhile_cons,
        Bool.not_false, Bool.not_true, if_true, ih]
      simp [specLoadIndex, h]

/-- The left-to-right scan of `re.search` for the speed-rating pattern
agrees with dropping to the first uppercase letter. -/
theorem searchSpeed_eq_spec (l : List Char) : searchSpeed l = specSpeedRating l := by
  induction l with
  | nil => rfl
  | cons c cs ih =>
    by_cases h : isUpperAZ c
    · simp [searchSpeed, specSpeedRating, h, List.dropWhile_cons]
    · simp only [searchSpeed, specSpeedRating, h, if_false, List.dropWhile_cons,
        Bool.not_false, Bool.not_true, if_true, ih]
      simp [specSpeedRating, h]

/-- A list whose strip is empty is all whitespace. -/
theorem all_ws_of_strip_nil {l : List Char} (h : pyStripL l = []) :
    ∀ c ∈ l, pyWs c := by
  unfold pyStripL at h
  rw [List.reverse_eq_nil_iff, List.dropWhile_eq_nil_iff] at h
  intro c hc
  have hsplit : c ∈ l.takeWhile pyWs ++ l.dropWhile pyWs := by
    rw [List.takeWhile_append_dropWhile]; exact hc
  rcases List.mem_append.mp hsplit with h1 | h2
  · exact List.mem_takeWhile_imp h1
  · exact h c (List.mem_reverse.mpr h2)

/-- Whitespace characters are neither digits nor uppercase letters. -/
theorem ws_not_digit_not_upper {c : Char} (h : pyWs c) :
    c.isDigit = false ∧ isUpperAZ c = false := by
  simp only [pyWs, Bool.or_eq_true, decide_eq_true_eq] at h
  rcases h with ((((h | h) | h) | h) | h) | h <;> subst h <;> decide

/-- C8: `parse_load_speed_combined` returns, as load index, the first
maximal digit run (optionally containing one slash) and, as speed
rating, the first maximal uppercase-letter run, each field `none` when
its pattern has no match — exactly the spec's characterization, including
on empty or whitespace-only input, where the early return and the
no-match answer coincide and both fields are absent. -/
theorem c8_load_speed_split :
    (∀ s : String, parse_load_speed_combined s =
      ((specLoadIndex s.data).map String.mk, (specSpeedRating s.data).map String.mk)) ∧
    (∀ s : String, (∀ c ∈ s.data, pyWs c) →
      parse_load_speed_combined s = (none, none)) := by
  have key : ∀ s : String, parse_load_speed_combined s =
      ((specLoadIndex s.data).map String.mk, (specSpeedRating s.data).map String.mk) := by
    intro s
    unfold parse_load_speed_combined
    split
    · rename_i hcond
      have hws : ∀ c ∈ s.data, pyWs c := by
        rcases hcond with hnil | hstrip
        · intro c hc; rw [hnil] at hc; cases hc
        · have : pyStripL s.data = [] := by
            have := congrArg String.data hstrip
            simpa [pyStrip] using this
          exact all_ws_of_strip_nil this
      have hdig : s.data.dropWhile (fun c => !c.isDigit) = [] := by
        rw [List.dropWhile_eq_nil_iff]
        intro c hc
        simp [(ws_not_digit_not_upper (hws c hc)).1]
      have hup : s.data.dropWhile (fun c => !isUpperAZ c) = [] := by
        rw [List.dropWhile_eq_nil_iff]
        intro c hc
        simp [(ws_not_digit_not_upper (hws c hc)).2]
      simp [specLoadIndex, specSpeedRating, hdig, hup]
    · rw [searchLoad_eq_spec, searchSpeed_eq_spec]
  exact ⟨key, by
    intro s hws
    rw [key s]
    have hdig : s.data.dropWhile (fun c => !c.isDigit) = [] := by
      rw [List.dropWhile_eq_nil_iff]
      intro c hc
      simp [(ws_not_digit_not_upper (hws c hc)).1]
    have hup : s.data.dropWhile (fun c => !isUpperAZ c) = [] := by
      rw [List.dropWhile_eq_nil_iff]
      intro c hc
      simp [(ws_not_digit_not_upper (hws c hc)).2]
    simp [specLoadIndex, specSpeedRating, hdig, hup]⟩

/-- Witness for C8 at a whitespace-only input and a mixed token. -/
theorem c8_load_speed_split_witness :
    parse_load_speed_combined "  " = (none, none) ∧
    parse_load_speed_combined "95/93 J" =
      ((specLoadIndex "95/93 J".data).map String.mk,
       (specSpeedRating "95/93 J".data).map String.mk) :=
  ⟨c8_load_speed_split.2 "  " (by decide), c8_load_speed_split.1 "95/93 J"⟩

/-! Section: Claim C2 -/

/-- C2 fails on the code: the missing-`mpn`/`material` skip runs *before*
the brand quirks, so an MRF row with an empty primary material column is
dropped even though its `Complete Tyre Code` column is non-empty — the
substitution branch `if complete_code_field and not material` can never
fire (at that point `material` is always non-empty) and is dead code,
contradicting both the spec's step order (reject after quirks) and the
code's own intent.  At the failing input: the primary material extracts
to `""`, the fallback column strips to a non-empty code, yet the row
contributes no product. -/
theorem c2_mrf_fallback_dead :
    getRequiredField mrfFallbackRow mrfColumns.material = "" ∧
    pyStrip (rowGet mrfFallbackRow "Complete Tyre Code" "") = "155/80 D12 LOADSTAR" ∧
    parse_brand_data "MRF" mrfColumns [mrfFallbackRow] = [] := by
  refine ⟨by decide, by decide, by decide⟩

/-! Section: Claim C3 -/

/-- C3 fails on the code: the claimed tags `"xp"` and `"8pr"` never
appear, because `extract_tags` only keeps purely alphabetic runs of
length ≥ 3 from `material`/`pattern_model` (`XP` has two letters, `8PR`
is not a letter run with a word boundary) and the size tokenizer only
sees `"155/80 D12"`. -/
theorem c3_scenario_tags_counterexample :
    (parse_brand_data "Apollo" apolloColumns [scenarioRow]).map CanonicalProduct.tags =
      [scenarioTags] ∧
    "xp" ∉ scenarioTags ∧ "8pr" ∉ scenarioTags := by
  refine ⟨by decide, by decide, by decide⟩

/-- C3 (amended): the scenario row normalizes to a single product with
`record_type = "Tyre"`, `title = "155/80 D12 LOADSTAR SUPER XP"`,
`category` = brand, then `"SCV"`, then `"Tyres"`, and a tag set of size
at most 10 containing the lower-cased tokens `"loadstar"` and `"super"`
— but neither `"xp"` nor `"8pr"`, which the ≥ 3-letter tokenization
excludes. -/
theorem c3_scenario_normalization :
    (parse_brand_data "Apollo" apolloColumns [scenarioRow]).length = 1 ∧
    (parse_brand_data "Apollo" apolloColumns [scenarioRow]).map
      CanonicalProduct.record_type = ["Tyre"] ∧
    (parse_brand_data "Apollo" apolloColumns [scenarioRow]).map
      CanonicalProduct.title = ["155/80 D12 LOADSTAR SUPER XP"] ∧
    (parse_brand_data "Apollo" apolloColumns [scenarioRow]).map
      CanonicalProduct.category = ["Apollo" ++ " " ++ "SCV" ++ " " ++ "Tyres"] ∧
    (parse_brand_data "Apollo" apolloColumns [scenarioRow]).all
      (fun p => "loadstar" ∈ p.tags ∧ "super" ∈ p.tags ∧
        "xp" ∉ p.tags ∧ "8pr" ∉ p.tags ∧ p.tags.length ≤ 10) := by
  refine ⟨by decide, by decide, by decide, by decide, by decide⟩

/-! Section: Claim C4 -/

/-- Every product `parse_row` emits carries the brand-prefixed id built
from its own `mpn`. -/
theorem parse_row_id_format {brand : String} {cm : ColumnMap} {row : RawRow}
    {p : CanonicalProduct} (h : parse_row brand cm row = some p) :
    p.id = pyUpper brand ++ "_" ++ p.mpn := by
  simp only [parse_row] at h
  repeat split at h
  all_goals
    first
      | exact Option.noConfusion h
      | (cases Option.some.inj h; rfl)

/-- Every product `parse_brand_data` emits carries the brand-prefixed id
built from its own `mpn`. -/
theorem parse_brand_data_id_format {brand : String} {cm : ColumnMap}
    {rows : List RawRow} {p : CanonicalProduct}
    (h : p ∈ parse_brand_data brand cm rows) :
    p.id = pyUpper brand ++ "_" ++ p.mpn := by
  obtain ⟨row, -, hrow⟩ := List.mem_filterMap.mp h
  exact parse_row_id_format hrow

/-- Splitting at a separator absent from both prefixes is injective. -/
theorem underscore_append_inj :
    ∀ (u₁ : List Char) (u₂ : List Char) {m₁ m₂ : List Char},
      '_' ∉ u₁ → '_' ∉ u₂ → u₁ ++ '_' :: m₁ = u₂ ++ '_' :: m₂ →
      u₁ = u₂ ∧ m₁ = m₂ := by
  intro u₁
  induction u₁ with
  | nil =>
    intro u₂ m₁ m₂ _ h₂ h
    cases u₂ with
    | nil => exact ⟨rfl, by injection h⟩
    | cons b bs =>
      injection h with hb _
      exact absurd (hb ▸ List.mem_cons_self b bs) h₂
  | cons a as ih =>
    intro u₂ m₁ m₂ h₁ h₂ h
    cases u₂ with
    | nil =>
      injection h with hb _
      exact absurd (hb ▸ List.mem_cons_self a as) h₁
    | cons b bs =>
      injection h with hb ht
      obtain ⟨hu, hm⟩ := ih bs (fun hc => h₁ (List.mem_cons_of_mem a hc))
        (fun hc => h₂ (List.mem_cons_of_mem b hc)) ht
      exact ⟨by rw [hb, hu], hm⟩

/-- The id scheme `U ++ "_" ++ M` is injective when the prefixes contain
no underscore. -/
theorem id_scheme_inj {U₁ U₂ M₁ M₂ : String}
    (h₁ : '_' ∉ U₁.data) (h₂ : '_' ∉ U₂.data)
    (h : U₁ ++ "_" ++ M₁ = U₂ ++ "_" ++ M₂) : U₁ = U₂ ∧ M₁ = M₂ := by
  have hd : U₁.data ++ '_' :: M₁.data = U₂.data ++ '_' :: M₂.data := by
    have := congrArg String.data h
    simpa [String.data_append] using this
  obtain ⟨hu, hm⟩ := underscore_append_inj U₁.data U₂.data h₁ h₂ hd
  exact ⟨str_ext hu, str_ext hm⟩

/-- C4 fails on the code: a source file that repeats an mpn emits two
products with the same id, so ids are not unique across all products of
a multi-source run — here source "A" repeats `Z9` and the combined run
emits `A_Z9` twice. -/
theorem c4_duplicate_mpn_counterexample :
    (run_all_sources dupMpnSources).map CanonicalProduct.id =
      ["A_Z9", "A_Z9", "B_Z9"] ∧
    ¬ ((run_all_sources dupMpnSources).map CanonicalProduct.id).Pairwise (· ≠ ·) := by
  refine ⟨by decide, by decide⟩

/-- C4 (amended): in a multi-source run every emitted product has
`id = uppercase(source) ++ "_" ++ mpn`; ids are unique across all
products of all sources combined provided the uppercased source names
are pairwise distinct and underscore-free (as the configured registry's
Apollo/CEAT/MRF/Eurogrip are) *and* no source emits the same mpn twice —
a source repeating an mpn emits duplicate ids.  In particular two
sources "A" and "B" both containing mpn `Z9` produce the two distinct
ids `A_Z9` and `B_Z9`. -/
theorem c4_multi_source_ids (srcs : List (String × ColumnMap × List RawRow)) :
    (∀ s ∈ srcs, ∀ p ∈ parse_brand_data s.1 s.2.1 s.2.2,
      p.id = pyUpper s.1 ++ "_" ++ p.mpn) ∧
    ((srcs.map (fun s => pyUpper s.1)).Pairwise (· ≠ ·) →
     (∀ s ∈ srcs, '_' ∉ (pyUpper s.1).data) →
     (∀ s ∈ srcs,
       ((parse_brand_data s.1 s.2.1 s.2.2).map CanonicalProduct.mpn).Pairwise (· ≠ ·)) →
     ((run_all_sources srcs).map CanonicalProduct.id).Pairwise (· ≠ ·)) ∧
    ((run_all_sources
        [("A", mpnOnlyColumns, [[("MPN", "Z9"), ("Material", "T1")]]),
         ("B", mpnOnlyColumns, [[("MPN", "Z9"), ("Material", "T2")]])]).map
      CanonicalProduct.id = ["A_Z9", "B_Z9"] ∧ ("A_Z9" : String) ≠ "B_Z9") := by
  refine ⟨fun s _ p hp => parse_brand_data_id_format hp, ?_, by decide, by decide⟩
  intro hnames hunder hmpns
  rw [show (run_all_sources srcs).map CanonicalProduct.id =
        (srcs.map (fun s => (parse_brand_data s.1 s.2.1 s.2.2).map
          CanonicalProduct.id)).flatten by
      simp only [run_all_sources, List.map_flatten, List.map_map]; rfl]
  rw [List.pairwise_flatten]
  constructor
  · -- within one source: distinct mpns force distinct ids
    intro ids hids
    obtain ⟨s, hs, hids⟩ := List.mem_map.mp hids
    subst hids
    rw [List.pairwise_map]
    have hmpn := (List.pairwise_map).mp (hmpns s hs)
    refine hmpn.imp_of_mem ?_
    intro p q hp hq hne heq
    apply hne
    have hpid := parse_brand_data_id_format hp
    have hqid := parse_brand_data_id_format hq
    rw [hpid, hqid] at heq
    exact (id_scheme_inj (hunder s hs) (hunder s hs) heq).2
  · -- across sources: distinct underscore-free prefixes force distinct ids
    rw [List.pairwise_map]
    have hnm := (List.pairwise_map).mp hnames
    refine hnm.imp_of_mem ?_
    intro s t hs ht hne x hx y hy heq
    obtain ⟨p, hp, hpx⟩ := List.mem_map.mp hx
    obtain ⟨q, hq, hqy⟩ := List.mem_map.mp hy
    subst hpx; subst hqy
    have hpid := parse_brand_data_id_format hp
    have hqid := parse_brand_data_id_format hq
    rw [hpid, hqid] at heq
    exact hne (id_scheme_inj (hunder s hs) (hunder t ht) heq).1

/-- Witness for C4 at the two-source `Z9` scenario with an extra
distinct mpn: the hypotheses (distinct underscore-free uppercase names,
no duplicated mpn within a source) hold and the combined id list is
pairwise distinct. -/
theorem c4_multi_source_ids_witness :
    ((run_all_sources
        [("A", mpnOnlyColumns, [[("MPN", "Z9"), ("Material", "T1")]]),
         ("B", mpnOnlyColumns, [[("MPN", "Z9"), ("Material", "T2")]])]).map
      CanonicalProduct.id).Pairwise (· ≠ ·) :=
  (c4_multi_source_ids
    [("A", mpnOnlyColumns, [[("MPN", "Z9"), ("Material", "T1")]]),
     ("B", mpnOnlyColumns, [[("MPN", "Z9"), ("Material", "T2")]])]).2.1
    (by decide) (by decide) (by decide)

/-! Section: Claim C5 -/

/-- Chunking the empty list gives no batches, at any fuel. -/
theorem chunksF_nil (f : Nat) : chunksF f [] = [] := by cases f <;> rfl

/-- The concatenation of the chunks is the input list. -/
theorem chunksF_flatten :
    ∀ (f : Nat) (l : List CanonicalProduct), l.length ≤ f →
      (chunksF f l).flatten = l := by
  intro f
  induction f with
  | zero =>
    intro l hl
    rw [List.eq_nil_of_length_eq_zero (Nat.le_zero.mp hl)]
    rfl
  | succ f ih =>
    intro l hl
    cases l with
    | nil => rfl
    | cons c cs =>
      show ((c :: cs).take BATCH_SIZE :: chunksF f ((c :: cs).drop BATCH_SIZE)).flatten
        = c :: cs
      rw [List.flatten_cons, ih _ (by simp [BATCH_SIZE] at hl ⊢; omega), List.take_append_drop]

/-- Every chunk is non-empty and no longer than the batch size. -/
theorem chunksF_mem :
    ∀ (f : Nat) (l : List CanonicalProduct) (b : List CanonicalProduct),
      b ∈ chunksF f l → b.length ≤ BATCH_SIZE ∧ b ≠ [] := by
  intro f
  induction f with
  | zero => intro l b hb; cases l <;> cases hb
  | succ f ih =>
    intro l b hb
    cases l with
    | nil => cases hb
    | cons c cs =>
      rcases List.mem_cons.mp hb with hb | hb
      · subst hb
        refine ⟨by rw [List.length_take]; exact inf_le_left, ?_⟩
        show (c :: cs).take 100 ≠ []
        simp
      · exact ih _ _ hb

/-- Every chunk except possibly the last has length exactly the batch
size. -/
theorem chunksF_dropLast :
    ∀ (f : Nat) (l : List CanonicalProduct) (b : List CanonicalProduct),
      b ∈ (chunksF f l).dropLast → b.length = BATCH_SIZE := by
  intro f
  induction f with
  | zero => intro l b hb; cases l <;> cases hb
  | succ f ih =>
    intro l b hb
    cases l with
    | nil => cases hb
    | cons c cs =>
      have hstep : chunksF (f + 1) (c :: cs) =
          (c :: cs).take BATCH_SIZE :: chunksF f ((c :: cs).drop BATCH_SIZE) := rfl
      rw [hstep] at hb
      by_cases hr : chunksF f ((c :: cs).drop BATCH_SIZE) = []
      · rw [hr] at hb; cases hb
      · rw [List.dropLast_cons_of_ne_nil hr] at hb
        rcases List.mem_cons.mp hb with hb | hb
        · subst hb
          have hdrop : (c :: cs).drop BATCH_SIZE ≠ [] := by
            intro hc; exact hr (hc ▸ chunksF_nil f)
          have hlen : BATCH_SIZE < (c :: cs).length := by
            by_contra hc
            exact hdrop (List.drop_eq_nil_iff.mpr (by omega))
          rw [List.length_take]
          omega
        · exact ih _ _ hb

/-- The lengths of the chunks depend only on the input length. -/
theorem chunksF_map_length :
    ∀ (f : Nat) (l : List CanonicalProduct), l.length ≤ f →
      (chunksF f l).map List.length = lenChunksF f l.length := by
  intro f
  induction f with
  | zero =>
    intro l hl
    rw [List.eq_nil_of_length_eq_zero (Nat.le_zero.mp hl)]
    rfl
  | succ f ih =>
    intro l hl
    cases l with
    | nil => rfl
    | cons c cs =>
      show ((c :: cs).take BATCH_SIZE).length ::
          (chunksF f ((c :: cs).drop BATCH_SIZE)).map List.length =
        lenChunksF (f + 1) (cs.length + 1)
      rw [ih _ (by simp [BATCH_SIZE] at hl ⊢; omega), List.length_take, List.length_drop]
      rfl

/-- One step of `range(0, n, BATCH_SIZE)` for non-empty input. -/
theorem pyRangeBy_batch_step (n : Nat) (hn : 0 < n) :
    pyRangeBy n BATCH_SIZE =
      0 :: (pyRangeBy (n - BATCH_SIZE) BATCH_SIZE).map (· + BATCH_SIZE) := by
  unfold pyRangeBy
  have hcount : (n + BATCH_SIZE - 1) / BATCH_SIZE =
      (n - BATCH_SIZE + BATCH_SIZE - 1) / BATCH_SIZE + 1 := by
    show (n + 100 - 1) / 100 = (n - 100 + 100 - 1) / 100 + 1
    omega
  rw [hcount, List.range_succ_eq_map, List.map_cons, List.map_map, List.map_map]
  refine congrArg (0 :: ·) (List.map_congr_left ?_)
  intro i _
  show Nat.succ i * BATCH_SIZE = i * BATCH_SIZE + BATCH_SIZE
  rw [Nat.succ_mul]

/-- Shifting a slice by one batch is slicing the dropped list. -/
theorem pySlice_shift (s : Nat) (l : List CanonicalProduct) :
    pySlice (s + BATCH_SIZE) (min (s + BATCH_SIZE + BATCH_SIZE) l.length) l =
      pySlice s (min (s + BATCH_SIZE) (l.drop BATCH_SIZE).length)
        (l.drop BATCH_SIZE) := by
  unfold pySlice
  have h1 : (l.drop BATCH_SIZE).drop s = l.drop (s + BATCH_SIZE) := by
    rw [List.drop_drop, Nat.add_comm]
  rw [h1, List.length_drop]
  congr 1
  show min (s + 100 + 100) l.length - (s + 100) = min (s + 100) (l.length - 100) - s
  omega

/-- The slice loop of `main` computes exactly the declarative chunks. -/
theorem sliceLoop_eq_chunksF :
    ∀ (f : Nat) (l : List CanonicalProduct), l.length ≤ f →
      (pyRangeBy l.length BATCH_SIZE).map
        (fun s => pySlice s (min (s + BATCH_SIZE) l.length) l) = chunksF f l := by
  intro f
  induction f with
  | zero =>
    intro l hl
    rw [List.eq_nil_of_length_eq_zero (Nat.le_zero.mp hl)]
    rfl
  | succ f ih =>
    intro l hl
    cases l with
    | nil => rfl
    | cons c cs =>
      rw [pyRangeBy_batch_step _ (by simp), List.map_cons, List.map_map]
      have hhead : pySlice 0 (min (0 + BATCH_SIZE) (c :: cs).length) (c :: cs) =
          (c :: cs).take BATCH_SIZE := by
        unfold pySlice
        rw [List.drop_zero, Nat.zero_add, Nat.sub_zero]
        rcases le_or_lt (c :: cs).length BATCH_SIZE with hle | hlt
        · rw [min_eq_right hle, List.take_of_length_le le_rfl,
            List.take_of_length_le hle]
        · rw [min_eq_left (le_of_lt hlt)]
      have htail : ((fun s => pySlice s (min (s + BATCH_SIZE) (c :: cs).length) (c :: cs))
            ∘ (· + BATCH_SIZE)) =
          (fun s => pySlice s (min (s + BATCH_SIZE) ((c :: cs).drop BATCH_SIZE).length)
            ((c :: cs).drop BATCH_SIZE)) := by
        funext s
        exact pySlice_shift s (c :: cs)
      rw [hhead, htail]
      have hdlen : ((c :: cs).drop BATCH_SIZE).length = (c :: cs).length - BATCH_SIZE := by
        rw [List.length_drop]
      rw [show (c :: cs).length - BATCH_SIZE = ((c :: cs).drop BATCH_SIZE).length from
        hdlen.symm]
      rw [ih _ (by simp [BATCH_SIZE] at hl ⊢; omega)]
      rfl

/-- The batches submitted by the loop, in order, are the chunks. -/
theorem mainBatchTrace_snd (l : List CanonicalProduct) :
    (mainBatchTrace l).map Prod.snd = chunks l := by
  unfold mainBatchTrace chunks
  rw [List.map_map]
  exact sliceLoop_eq_chunksF l.length l le_rfl

/-- C5: the batch loop splits the products into contiguous,
order-preserving batches whose concatenation is the input, each of size
at most `BATCH_SIZE` (= 100) and non-empty, all but the last of size
exactly 100; the batch numbers it submits and awaits are `1, 2, 3, …` in
input order; and 250 products yield exactly the batch sizes
`[100, 100, 50]` in that order. -/
theorem c5_batching (l : List CanonicalProduct) :
    ((mainBatchTrace l).map Prod.snd).flatten = l ∧
    (∀ b ∈ (mainBatchTrace l).map Prod.snd, b.length ≤ BATCH_SIZE ∧ b ≠ []) ∧
    (∀ b ∈ ((mainBatchTrace l).map Prod.snd).dropLast, b.length = BATCH_SIZE) ∧
    (mainBatchTrace l).map Prod.fst =
      (List.range (mainBatchTrace l).length).map (· + 1) ∧
    (l.length = 250 →
      (mainBatchTrace l).map (fun pb => pb.2.length) = [100, 100, 50]) := by
  refine ⟨?_, ?_, ?_, ?_, ?_⟩
  · rw [mainBatchTrace_snd]
    exact chunksF_flatten l.length l le_rfl
  · rw [mainBatchTrace_snd]
    exact fun b hb => chunksF_mem l.length l b hb
  · rw [mainBatchTrace_snd]
    exact fun b hb => chunksF_dropLast l.length l b hb
  · unfold mainBatchTrace pyRangeBy
    rw [List.map_map, List.map_map, List.length_map, List.length_map,
      List.length_range]
    refine List.map_congr_left ?_
    intro i _
    show i * BATCH_SIZE / BATCH_SIZE + 1 = i + 1
    rw [Nat.mul_div_cancel _ (show 0 < BATCH_SIZE by decide)]
  · intro h250
    have : (mainBatchTrace l).map (fun pb => pb.2.length) =
        ((mainBatchTrace l).map Prod.snd).map List.length := by
      rw [List.map_map]; rfl
    rw [this, mainBatchTrace_snd]
    unfold chunks
    rw [chunksF_map_length l.length l le_rfl, h250]
    decide

/-- Witness for C5 at a concrete list of 250 products. -/
theorem c5_batching_witness :
    (mainBatchTrace (List.replicate 250 sampleProduct)).map
      (fun pb => pb.2.length) = [100, 100, 50] :=
  (c5_batching (List.replicate 250 sampleProduct)).2.2.2.2 (List.length_replicate 250 sampleProduct)

end SearchBackend
